import Mathlib

/-
Formal model of the transcoding pipeline in
docs/_build/jupyter_execute/transcoding-large-experiments.py.

Filesystem paths are modelled as their tuple of pathlib parts: an
absolute path has the root part "/" first.  Pandas float semantics
(NaN, signed infinities, NaN-skipping sums) are modelled by PVal.
-/

/-- A filesystem path, as the tuple of pathlib parts.  An absolute path
has the root "/" as its first part. -/
abbrev PathParts : Type := List String

/-- MOUNT_POINT from the source: the mount directory /media/andre. -/
def MOUNT_POINT : PathParts := ["/", "media", "andre"]

/-- DRIVES from the source: the names of the drives holding the data. -/
def DRIVES : List String := ["11D9-5C57", "5161-4A93", "9B57-8640"]

/-- OUTPUT_DRIVE from the source: MOUNT_POINT / maternal, where the
transcoded videos are stored. -/
def OUTPUT_DRIVE : PathParts := MOUNT_POINT ++ ["maternal"]

/-- pathlib relative_to: the parts of p past base when base is a parent
of p; none models the ValueError raised when it is not. -/
def relative_to (p base : PathParts) : Option PathParts :=
  if p.take base.length = base then some (p.drop base.length) else none

/-- The last part of a path, i.e. the filename; the empty string for the
empty path. -/
def lastPart (p : PathParts) : String := p.getLastD ""

/-- Python str.startswith, stated over the character list of the string
so that it reduces structurally. -/
def strStartsWith (s pat : String) : Bool :=
  s.data.take pat.data.length == pat.data

/-- Python str.endswith, stated over the character list of the string. -/
def strEndsWith (s pat : String) : Bool :=
  s.data.reverse.take pat.data.length == pat.data.reverse

/-- Python str.lower, character by character. -/
def strToLower (s : String) : String := String.mk (s.data.map Char.toLower)

/-- The file extension as the source computes it, the last dot-separated
piece of the filename: everything after the last dot, or the whole
filename when it has no dot. -/
def extension (p : PathParts) : String :=
  String.mk ((lastPart p).data.foldl (fun acc c => if c = '.' then [] else acc ++ [c]) [])

/-- is_visible from the source: a path is visible when no part starts
with a dot. -/
def is_visible (filepath : PathParts) : Bool :=
  filepath.all (fun part => !(strStartsWith part "."))

/-- is_not_recycled from the source: no part starts with the recycle-bin
marker. -/
def is_not_recycled (filepath : PathParts) : Bool :=
  filepath.all (fun part => !(strStartsWith part "$RECYCLE"))

/-- The union of the two discovery globs over mp4 and MPG: the filename
must end with one of the two literal, case-sensitive suffixes, exactly as
pathlib glob matches them on a case-sensitive filesystem. -/
def matchesVideoGlob (filepath : PathParts) : Bool :=
  strEndsWith (lastPart filepath) ".mp4" || strEndsWith (lastPart filepath) ".MPG"

/-- A discovered file survives the source filtering pipeline: the
extension globs, then is_visible, then is_not_recycled. -/
def eligible (filepath : PathParts) : Bool :=
  matchesVideoGlob filepath && is_visible filepath && is_not_recycled filepath

/-- The eligibility rule as the spec words it, stated for comparison
with eligible: the extension, compared case-insensitively, must be in
the allow-list of mp4 and MPG; hidden and quarantined segments excluded. -/
def claimedEligible (filepath : PathParts) : Bool :=
  (["mp4", "MPG"].map strToLower).contains (strToLower (extension filepath))
    && is_visible filepath && is_not_recycled filepath

/-- Raw values returned by the cv2.VideoCapture probe for one file. -/
structure RawProbe where
  frames : Int
  fps : ℚ
  width : Int
  height : Int
  deriving DecidableEq

/-- One row of metadata_df.  The frames field is an Option: some models
an int64 value, none models the NaN written by the outlier patch. -/
structure MetaRow where
  file : PathParts
  filetype : String
  frames : Option Int
  fps : ℚ
  width : Int
  height : Int
  deriving DecidableEq

/-- One iteration of the metadata loop: the raw probe values are stored
unchanged. -/
def mkMetadataRow (probe : PathParts → RawProbe) (video : PathParts) : MetaRow :=
  { file := video,
    filetype := extension video,
    frames := some (probe video).frames,
    fps := (probe video).fps,
    width := (probe video).width,
    height := (probe video).height }

/-- metadata_df as built by the metadata loop over all_videos. -/
def metadataRows (probe : PathParts → RawProbe) (all_videos : List PathParts) :
    List MetaRow :=
  all_videos.map (mkMetadataRow probe)

/-- The outlier_rows selector of the source: rows whose raw frame count
is negative. -/
def framesNegative (row : MetaRow) : Bool :=
  match row.frames with
  | some f => decide (f < 0)
  | none => false

/-- The outlier patch of the source: the frames of every outlier row are
set to None, all other rows are untouched. -/
def patchOutliers (rows : List MetaRow) : List MetaRow :=
  rows.map (fun row => if framesNegative row then { row with frames := none } else row)

/-- Reasons an anomaly can be flagged for. -/
inductive AnomalyReason where
  | NegativeFrameCount
  | ZeroFps
  | ProbeFailure
  | UnreadableFile
  deriving DecidableEq

/-- A flagged file together with the reason. -/
structure AnomalyRecord where
  file : PathParts
  reason : AnomalyReason
  deriving DecidableEq

/-- The anomaly set the source records for manual review: the outlier
rows, selected by a negative raw frame count and displayed before being
patched.  This selection is the only anomaly mechanism in the source. -/
def anomalies (rows : List MetaRow) : List AnomalyRecord :=
  (rows.filter framesNegative).map
    (fun row => { file := row.file, reason := AnomalyReason.NegativeFrameCount })

/-- Pandas float values: a finite value, NaN, or a signed infinity. -/
inductive PVal where
  | num (q : ℚ)
  | nan
  | posinf
  | neginf
  deriving DecidableEq

/-- IEEE addition as used by a pandas sum. -/
def pAdd : PVal → PVal → PVal
  | PVal.nan, _ => PVal.nan
  | _, PVal.nan => PVal.nan
  | PVal.num a, PVal.num b => PVal.num (a + b)
  | PVal.num _, PVal.posinf => PVal.posinf
  | PVal.num _, PVal.neginf => PVal.neginf
  | PVal.posinf, PVal.num _ => PVal.posinf
  | PVal.neginf, PVal.num _ => PVal.neginf
  | PVal.posinf, PVal.posinf => PVal.posinf
  | PVal.neginf, PVal.neginf => PVal.neginf
  | PVal.posinf, PVal.neginf => PVal.nan
  | PVal.neginf, PVal.posinf => PVal.nan

/-- IEEE division for the frames over fps column.  Signed zero is not
modelled; the pipeline only ever divides a finite or NaN numerator by a
finite denominator. -/
def pdiv : PVal → PVal → PVal
  | PVal.nan, _ => PVal.nan
  | _, PVal.nan => PVal.nan
  | PVal.num a, PVal.num b =>
      if b = 0 then
        (if a = 0 then PVal.nan else if 0 < a then PVal.posinf else PVal.neginf)
      else PVal.num (a / b)
  | PVal.num _, PVal.posinf => PVal.num 0
  | PVal.num _, PVal.neginf => PVal.num 0
  | PVal.posinf, PVal.num b => if 0 ≤ b then PVal.posinf else PVal.neginf
  | PVal.neginf, PVal.num b => if 0 ≤ b then PVal.neginf else PVal.posinf
  | PVal.posinf, _ => PVal.nan
  | PVal.neginf, _ => PVal.nan

/-- One step of the pandas sum: NaN entries are skipped. -/
def sumStep (acc v : PVal) : PVal :=
  match v with
  | PVal.nan => acc
  | v => pAdd acc v

/-- Pandas sum with the default skipna behaviour, starting from 0. -/
def psum (l : List PVal) : PVal := l.foldl sumStep (PVal.num 0)

/-- The value the frames over fps column takes on one row: a NaN frames
entry propagates to NaN. -/
def rowDuration (row : MetaRow) : PVal :=
  pdiv (match row.frames with
        | some f => PVal.num (f : ℚ)
        | none => PVal.nan)
       (PVal.num row.fps)

/-- total_seconds from the source: the skipna sum of the frames over fps
column. -/
def total_seconds (rows : List MetaRow) : PVal := psum (rows.map rowDuration)

/-- One generated line of transcode.sh.  The template of the source is
mkdir -p MKDIRDIR && ffmpeg -y -hwaccel cuda -hwaccel_output_format cuda
-extra_hw_frames 4 -i INPUT -c:v CODEC -crf CRF OUTPUT
so the directory creation is sequenced before the ffmpeg invocation, the
input path is only read (the -i flag), and the only write targets of the
line are MKDIRDIR and OUTPUT. -/
structure ShellLine where
  mkdirDir : PathParts
  input : PathParts
  output : PathParts
  codec : String
  crf : Nat
  deriving DecidableEq

/-- output_filepath from the source: OUTPUT_DRIVE joined with the input
video path relative to MOUNT_POINT. -/
def output_filepath (video : PathParts) : Option PathParts :=
  (relative_to video MOUNT_POINT).map (fun rel => OUTPUT_DRIVE ++ rel)

/-- The command line generated for one video: the mkdir target is the
parent of the output file, the codec and quality flags are constant. -/
def genLine (video : PathParts) : Option ShellLine :=
  (output_filepath video).map (fun out =>
    { mkdirDir := out.dropLast, input := video, output := out,
      codec := "h264_nvenc", crf := 24 })

/-- The whole generated transcode.sh, one line per video of all_videos. -/
def transcodeScript (all_videos : List PathParts) : List ShellLine :=
  all_videos.filterMap genLine

/-- One row of the verification table transcoded_metadata_df. -/
structure VerifRow where
  file : PathParts
  transcoded_file : PathParts
  frames : Int
  transcoded_frames : Int
  filesize_mb : ℚ
  transcoded_filesize_mb : ℚ
  deriving DecidableEq

/-- Python round to one decimal place, modelled over the rationals (the
half-even behaviour of binary floats at exact midpoints is not modelled;
no claim depends on it). -/
def round1 (q : ℚ) : ℚ := ((round (10 * q) : ℤ) : ℚ) / 10

/-- File size in megabytes as displayed by the verification loop. -/
def filesize_mb (sizeBytes : Int) : ℚ := round1 ((sizeBytes : ℚ) / 1000000)

/-- The reconstruction of the original path in the verification loop:
MOUNT_POINT joined with the transcoded path relative to OUTPUT_DRIVE. -/
def original_video (transcoded_video : PathParts) : Option PathParts :=
  (relative_to transcoded_video OUTPUT_DRIVE).map (fun rel => MOUNT_POINT ++ rel)

/-- One iteration of the verification loop for one transcoded file. -/
def verifRow (probe : PathParts → RawProbe) (sizeOf : PathParts → Int)
    (transcoded_video : PathParts) : Option VerifRow :=
  (relative_to transcoded_video OUTPUT_DRIVE).map (fun rel =>
    let orig := MOUNT_POINT ++ rel
    { file := orig,
      transcoded_file := transcoded_video,
      frames := (probe orig).frames,
      transcoded_frames := (probe transcoded_video).frames,
      filesize_mb := filesize_mb (sizeOf orig),
      transcoded_filesize_mb := filesize_mb (sizeOf transcoded_video) })

/-- A sample input video on the first drive. -/
def v_driveA : PathParts := MOUNT_POINT ++ ["11D9-5C57", "x", "clip.mp4"]

/-- The same relative path on the second drive. -/
def v_driveB : PathParts := MOUNT_POINT ++ ["5161-4A93", "x", "clip.mp4"]

/-- The transcoded counterpart of v_driveA under the output drive. -/
def t_clip : PathParts := OUTPUT_DRIVE ++ ["11D9-5C57", "x", "clip.mp4"]

/-- A probe reporting sane, constant metadata. -/
def probeW1 : PathParts → RawProbe :=
  fun _ => { frames := 10, fps := 30, width := 704, height := 480 }

/-- Like probeW1 but the transcoded clip has width 720 instead of 704. -/
def probeW2 : PathParts → RawProbe :=
  fun p =>
    if p = t_clip then { frames := 10, fps := 30, width := 720, height := 480 }
    else { frames := 10, fps := 30, width := 704, height := 480 }

/-- A constant file size of one megabyte. -/
def size0 : PathParts → Int := fun _ => 1000000

/-- A probe returning the corrupted negative frame count observed in the
source material. -/
def probeNeg : PathParts → RawProbe :=
  fun _ => { frames := -3074457345618259968, fps := 30, width := 720, height := 480 }

/-- A probe reporting a zero fps. -/
def probeZeroFps : PathParts → RawProbe :=
  fun _ => { frames := 100, fps := 0, width := 704, height := 480 }

/-- A metadata row with known frames and fps. -/
def sampleRow : MetaRow :=
  { file := v_driveA, filetype := "mp4", frames := some 100, fps := 30,
    width := 704, height := 480 }

/-- A metadata row whose frames were patched to NaN. -/
def unknownRow : MetaRow :=
  { file := v_driveB, filetype := "mp4", frames := none, fps := 30,
    width := 704, height := 480 }

/-- The shell line generated for v_driveA. -/
def lineA : ShellLine :=
  { mkdirDir := OUTPUT_DRIVE ++ ["11D9-5C57", "x"],
    input := v_driveA,
    output := OUTPUT_DRIVE ++ ["11D9-5C57", "x", "clip.mp4"],
    codec := "h264_nvenc", crf := 24 }

/-- The verification row produced for t_clip under probeW1 and size0. -/
def rowA : VerifRow :=
  { file := v_driveA,
    transcoded_file := t_clip,
    frames := 10,
    transcoded_frames := 10,
    filesize_mb := filesize_mb 1000000,
    transcoded_filesize_mb := filesize_mb 1000000 }

theorem relative_to_append (base rel : PathParts) :
    relative_to (base ++ rel) base = some rel := by
  unfold relative_to
  rw [List.take_left, List.drop_left]
  simp

theorem relative_to_of_take_eq (v base : PathParts)
    (h : v.take base.length = base) :
    relative_to v base = some (v.drop base.length) := by
  unfold relative_to
  rw [h]
  simp

theorem eq_append_of_take_eq (v base : PathParts)
    (h : v.take base.length = base) : v = base ++ v.drop base.length := by
  conv_lhs => rw [← List.take_append_drop base.length v]
  rw [h]

theorem lastPart_append (base rel : PathParts) (h : rel ≠ []) :
    lastPart (base ++ rel) = lastPart rel := by
  unfold lastPart
  rw [List.getLastD_eq_getLast?, List.getLastD_eq_getLast?,
    List.getLast?_append_of_ne_nil base h]

theorem psum_append_nan_cons (xs ys : List PVal) :
    psum (xs ++ PVal.nan :: ys) = psum (xs ++ ys) := by
  unfold psum
  rw [List.foldl_append, List.foldl_append, List.foldl_cons]
  rfl

/-- C1: a record with an unknown frame count contributes nothing to the
aggregate duration: inserting or removing it anywhere in the inventory
leaves total_seconds unchanged, because its NaN duration is skipped by
the sum rather than treated as zero. -/
theorem C1_unknown_duration_excluded (xs ys : List MetaRow) (r : MetaRow)
    (h : r.frames = none) :
    total_seconds (xs ++ r :: ys) = total_seconds (xs ++ ys) := by
  unfold total_seconds
  rw [List.map_append, List.map_cons, List.map_append]
  have hr : rowDuration r = PVal.nan := by
    unfold rowDuration
    rw [h]
    rfl
  rw [hr, psum_append_nan_cons]

/-- C1 witness: removing a concrete unknown-duration row from a concrete
inventory leaves the total unchanged. -/
theorem C1_witness :
    total_seconds ([sampleRow] ++ unknownRow :: []) = total_seconds ([sampleRow] ++ []) :=
  C1_unknown_duration_excluded [sampleRow] [] unknownRow rfl

/-- C2: a file probed with a negative raw frame count gets its frames
entry patched to the unknown sentinel instead of the raw value, is
flagged as a NegativeFrameCount anomaly, and still receives a line in
the generated transcode script. -/
theorem C2_negative_framecount (probe : PathParts → RawProbe)
    (all_videos : List PathParts) (v : PathParts)
    (hv : v ∈ all_videos) (hneg : (probe v).frames < 0)
    (hmount : v.take MOUNT_POINT.length = MOUNT_POINT) :
    (∃ row ∈ patchOutliers (metadataRows probe all_videos),
        row.file = v ∧ row.frames = none)
    ∧ ({ file := v, reason := AnomalyReason.NegativeFrameCount } : AnomalyRecord)
        ∈ anomalies (metadataRows probe all_videos)
    ∧ ∃ line ∈ transcodeScript all_videos, line.input = v := by
  have hfn : framesNegative (mkMetadataRow probe v) = true := by
    unfold framesNegative mkMetadataRow
    simp [hneg]
  refine ⟨?_, ?_, ?_⟩
  · refine ⟨{ mkMetadataRow probe v with frames := none }, ?_, rfl, rfl⟩
    unfold patchOutliers
    refine List.mem_map.mpr ⟨mkMetadataRow probe v, ?_, ?_⟩
    · exact List.mem_map.mpr ⟨v, hv, rfl⟩
    · simp [hfn]
  · unfold anomalies
    refine List.mem_map.mpr ⟨mkMetadataRow probe v, ?_, rfl⟩
    exact List.mem_filter.mpr ⟨List.mem_map.mpr ⟨v, hv, rfl⟩, hfn⟩
  · refine ⟨{ mkdirDir := (OUTPUT_DRIVE ++ v.drop MOUNT_POINT.length).dropLast,
              input := v,
              output := OUTPUT_DRIVE ++ v.drop MOUNT_POINT.length,
              codec := "h264_nvenc", crf := 24 }, ?_, rfl⟩
    unfold transcodeScript
    refine List.mem_filterMap.mpr ⟨v, hv, ?_⟩
    unfold genLine output_filepath
    rw [relative_to_of_take_eq v MOUNT_POINT hmount]
    rfl

/-- C2 witness: the corrupt frame count from the source material, on a
concrete file, is patched, flagged, and the file stays in the script. -/
theorem C2_witness :
    (∃ row ∈ patchOutliers (metadataRows probeNeg [v_driveA]),
        row.file = v_driveA ∧ row.frames = none)
    ∧ ({ file := v_driveA, reason := AnomalyReason.NegativeFrameCount } : AnomalyRecord)
        ∈ anomalies (metadataRows probeNeg [v_driveA])
    ∧ ∃ line ∈ transcodeScript [v_driveA], line.input = v_driveA :=
  C2_negative_framecount probeNeg [v_driveA] v_driveA (by decide) (by decide) (by decide)

/-- C3 counterexample: two drives both holding the relative path
x/clip.mp4 produce two generated jobs, not zero, and the two planned
output paths are distinct, so the scenario raises nothing and executes
both jobs. -/
theorem C3_counterexample :
    (transcodeScript [v_driveA, v_driveB]).length = 2
    ∧ (transcodeScript [v_driveA, v_driveB]).map ShellLine.output =
        [OUTPUT_DRIVE ++ ["11D9-5C57", "x", "clip.mp4"],
         OUTPUT_DRIVE ++ ["5161-4A93", "x", "clip.mp4"]]
    ∧ (OUTPUT_DRIVE ++ ["11D9-5C57", "x", "clip.mp4"] : PathParts) ≠
        OUTPUT_DRIVE ++ ["5161-4A93", "x", "clip.mp4"] := by
  refine ⟨rfl, rfl, ?_⟩
  decide

/-- C3 amended: the planner keeps the drive name inside the
mount-relative path, so the output mapping is injective on paths under
the mount point: two distinct inputs can never map to one output, no
collision is possible, and the source accordingly has no collision check
and raises no error. -/
theorem C3_no_collision_possible (u v ou ov : PathParts)
    (hu : u.take MOUNT_POINT.length = MOUNT_POINT)
    (hv : v.take MOUNT_POINT.length = MOUNT_POINT)
    (hne : u ≠ v)
    (hou : output_filepath u = some ou) (hov : output_filepath v = some ov) :
    ou ≠ ov := by
  unfold output_filepath at hou hov
  rw [relative_to_of_take_eq u MOUNT_POINT hu] at hou
  rw [relative_to_of_take_eq v MOUNT_POINT hv] at hov
  simp only [Option.map_some'] at hou hov
  have hou2 := Option.some.inj hou
  have hov2 := Option.some.inj hov
  intro hcontra
  apply hne
  have hdrop : u.drop MOUNT_POINT.length = v.drop MOUNT_POINT.length :=
    List.append_cancel_left (by rw [hou2, hcontra, ← hov2])
  calc u = MOUNT_POINT ++ u.drop MOUNT_POINT.length :=
        eq_append_of_take_eq u MOUNT_POINT hu
    _ = MOUNT_POINT ++ v.drop MOUNT_POINT.length := by rw [hdrop]
    _ = v := (eq_append_of_take_eq v MOUNT_POINT hv).symm

/-- C3 witness: the two scenario inputs map to outputs the theorem
proves distinct. -/
theorem C3_witness :
    (OUTPUT_DRIVE ++ ["11D9-5C57", "x", "clip.mp4"] : PathParts) ≠
      OUTPUT_DRIVE ++ ["5161-4A93", "x", "clip.mp4"] :=
  C3_no_collision_possible v_driveA v_driveB _ _ (by decide) (by decide) (by decide) rfl rfl

/-- C4 counterexample: a path whose extension matches the allow-list
case-insensitively but not case-sensitively is eligible per the claim
and rejected by the code. -/
theorem C4_counterexample :
    claimedEligible ["a", "video.MP4"] = true
    ∧ eligible ["a", "video.MP4"] = false := ⟨rfl, rfl⟩

/-- C4 amended: a path is eligible iff its filename ends with the
literal suffix .mp4 or .MPG, exactly as the case-sensitive globs match,
no segment starts with a dot, and no segment starts with the recycle
marker; on the scenario paths only a/video.mp4 is eligible. -/
theorem C4_eligibility_rules :
    (∀ p : PathParts, eligible p = true ↔
      (strEndsWith (lastPart p) ".mp4" = true ∨ strEndsWith (lastPart p) ".MPG" = true)
      ∧ (∀ s ∈ p, strStartsWith s "." = false)
      ∧ (∀ s ∈ p, strStartsWith s "$RECYCLE" = false))
    ∧ eligible ["a", "video.mp4"] = true
    ∧ eligible ["a", ".hidden", "video.mp4"] = false
    ∧ eligible ["b", "$RECYCLE", "video.MPG"] = false
    ∧ eligible ["c", "note.txt"] = false := by
  refine ⟨?_, rfl, rfl, rfl, rfl⟩
  intro p
  unfold eligible matchesVideoGlob is_visible is_not_recycled
  simp [List.all_eq_true]
  exact and_assoc

/-- C4 witness: the characterization applied at the eligible scenario
path. -/
theorem C4_witness : eligible ["a", "video.mp4"] = true :=
  (C4_eligibility_rules.1 ["a", "video.mp4"]).mpr (by decide)

/-- C5 counterexample: a file probed with fps zero is recorded with fps
zero as-is, not a sentinel, and the anomaly list stays empty, so no
ZeroFps anomaly is ever recorded. -/
theorem C5_counterexample :
    (patchOutliers (metadataRows probeZeroFps [v_driveA])).map MetaRow.fps = [0]
    ∧ anomalies (metadataRows probeZeroFps [v_driveA]) = [] := ⟨rfl, rfl⟩

/-- C5 amended: a non-positive raw fps is stored unchanged in the
metadata row, and every anomaly the pipeline ever records has reason
NegativeFrameCount; there is no ZeroFps handling. -/
theorem C5_fps_recorded_raw (probe : PathParts → RawProbe) (v : PathParts)
    (_hfps : (probe v).fps ≤ 0) :
    (mkMetadataRow probe v).fps = (probe v).fps
    ∧ (anomalies (metadataRows probe [v])).all
        (fun a => decide (a.reason = AnomalyReason.NegativeFrameCount)) = true := by
  refine ⟨rfl, ?_⟩
  unfold anomalies metadataRows
  rw [List.all_eq_true]
  intro a ha
  rcases List.mem_map.mp ha with ⟨row, hrow, hrfl⟩
  subst hrfl
  simp

/-- C5 witness: the zero-fps probe on a concrete file. -/
theorem C5_witness :
    (mkMetadataRow probeZeroFps v_driveA).fps = (probeZeroFps v_driveA).fps
    ∧ (anomalies (metadataRows probeZeroFps [v_driveA])).all
        (fun a => decide (a.reason = AnomalyReason.NegativeFrameCount)) = true :=
  C5_fps_recorded_raw probeZeroFps v_driveA (le_refl 0)

/-- C6: the planned output path is the output root joined with the
mount-relative path of the input, preserving the directory structure;
for a nonempty relative path the filename and the extension are
unchanged. -/
theorem C6_output_path_mirrors (v rel : PathParts) (hv : v = MOUNT_POINT ++ rel) :
    output_filepath v = some (OUTPUT_DRIVE ++ rel)
    ∧ (rel ≠ [] → lastPart (OUTPUT_DRIVE ++ rel) = lastPart v
        ∧ extension (OUTPUT_DRIVE ++ rel) = extension v) := by
  subst hv
  refine ⟨?_, fun hrel => ?_⟩
  · unfold output_filepath
    rw [relative_to_append]
    rfl
  · have h1 : lastPart (OUTPUT_DRIVE ++ rel) = lastPart rel :=
      lastPart_append OUTPUT_DRIVE rel hrel
    have h2 : lastPart (MOUNT_POINT ++ rel) = lastPart rel :=
      lastPart_append MOUNT_POINT rel hrel
    refine ⟨h1.trans h2.symm, ?_⟩
    unfold extension
    rw [h1, h2]

/-- C6 witness: the scenario input path mapped concretely. -/
theorem C6_witness :
    output_filepath v_driveA = some (OUTPUT_DRIVE ++ ["11D9-5C57", "x", "clip.mp4"])
    ∧ lastPart (OUTPUT_DRIVE ++ ["11D9-5C57", "x", "clip.mp4"]) = lastPart v_driveA :=
  ⟨(C6_output_path_mirrors v_driveA ["11D9-5C57", "x", "clip.mp4"] rfl).1,
   ((C6_output_path_mirrors v_driveA ["11D9-5C57", "x", "clip.mp4"] rfl).2 (by decide)).1⟩

/-- C7 counterexample: two runs that differ only in the width of the
transcoded clip (704 versus 720) produce identical verification rows:
width differences are recorded nowhere, so no deltas mapping and no
consistent flag exist on the record. -/
theorem C7_counterexample :
    (probeW2 t_clip).width ≠ (probeW1 t_clip).width
    ∧ verifRow probeW1 size0 t_clip = verifRow probeW2 size0 t_clip := by
  refine ⟨by decide, rfl⟩

/-- C7 amended: the verification row records exactly the original and
transcoded frame counts and file sizes; when the probe returns identical
metadata for both paths, as an identity transcode does, the two
frame-count columns agree. -/
theorem C7_verification_row (probe : PathParts → RawProbe)
    (sizeOf : PathParts → Int) (rel : PathParts) (row : VerifRow)
    (h : verifRow probe sizeOf (OUTPUT_DRIVE ++ rel) = some row) :
    row.file = MOUNT_POINT ++ rel
    ∧ row.frames = (probe (MOUNT_POINT ++ rel)).frames
    ∧ row.transcoded_frames = (probe (OUTPUT_DRIVE ++ rel)).frames
    ∧ ((probe (MOUNT_POINT ++ rel)).frames = (probe (OUTPUT_DRIVE ++ rel)).frames
        → row.frames = row.transcoded_frames) := by
  unfold verifRow at h
  rw [relative_to_append] at h
  simp only [Option.map_some'] at h
  have hrow := (Option.some.inj h).symm
  subst hrow
  exact ⟨rfl, rfl, rfl, fun hid => hid⟩

/-- C7 witness: the identity-transcode probe on a concrete clip yields
agreeing frame counts. -/
theorem C7_witness : rowA.frames = rowA.transcoded_frames :=
  (C7_verification_row probeW1 size0 ["11D9-5C57", "x", "clip.mp4"] rowA rfl).2.2.2 rfl

theorem transcodeScript_map (all_videos : List PathParts)
    (hall : ∀ v ∈ all_videos, v.take MOUNT_POINT.length = MOUNT_POINT) :
    transcodeScript all_videos = all_videos.map (fun v =>
      { mkdirDir := (OUTPUT_DRIVE ++ v.drop MOUNT_POINT.length).dropLast,
        input := v,
        output := OUTPUT_DRIVE ++ v.drop MOUNT_POINT.length,
        codec := "h264_nvenc", crf := 24 }) := by
  induction all_videos with
  | nil => rfl
  | cons v vs ih =>
    have hv := hall v (List.mem_cons_self v vs)
    have hvs : ∀ u ∈ vs, u.take MOUNT_POINT.length = MOUNT_POINT :=
      fun u hu => hall u (List.mem_cons_of_mem v hu)
    have hgl : genLine v = some
        { mkdirDir := (OUTPUT_DRIVE ++ v.drop MOUNT_POINT.length).dropLast,
          input := v,
          output := OUTPUT_DRIVE ++ v.drop MOUNT_POINT.length,
          codec := "h264_nvenc", crf := 24 } := by
      unfold genLine output_filepath
      rw [relative_to_of_take_eq v MOUNT_POINT hv]
      rfl
    unfold transcodeScript at ih ⊢
    rw [List.map_cons, List.filterMap_cons, hgl, ih hvs]

/-- C8: the generated script has exactly one line per video; each line
first creates the parent directory of its own output, sequenced before
the ffmpeg call by the shell conjunction, and invokes the tool with that
video as input, its planned output path, and the constant codec and
quality flags shared by every job. -/
theorem C8_one_line_per_job (all_videos : List PathParts)
    (hall : ∀ v ∈ all_videos, v.take MOUNT_POINT.length = MOUNT_POINT) :
    (transcodeScript all_videos).length = all_videos.length
    ∧ ∀ i (hi : i < all_videos.length),
        ∃ line, (transcodeScript all_videos)[i]? = some line
          ∧ line.input = all_videos[i]
          ∧ output_filepath line.input = some line.output
          ∧ line.mkdirDir = line.output.dropLast
          ∧ line.codec = "h264_nvenc"
          ∧ line.crf = 24 := by
  rw [transcodeScript_map all_videos hall]
  refine ⟨List.length_map _ _, ?_⟩
  intro i hi
  refine ⟨{ mkdirDir := (OUTPUT_DRIVE ++ all_videos[i].drop MOUNT_POINT.length).dropLast,
            input := all_videos[i],
            output := OUTPUT_DRIVE ++ all_videos[i].drop MOUNT_POINT.length,
            codec := "h264_nvenc", crf := 24 }, ?_, rfl, ?_, rfl, rfl, rfl⟩
  · rw [List.getElem?_map, List.getElem?_eq_getElem hi]
    rfl
  · unfold output_filepath
    rw [relative_to_of_take_eq _ MOUNT_POINT (hall _ (List.getElem_mem hi))]
    rfl

/-- C8 witness: a one-video script instantiated concretely. -/
theorem C8_witness :
    (transcodeScript [v_driveA]).length = [v_driveA].length
    ∧ ∃ line, (transcodeScript [v_driveA])[0]? = some line
        ∧ line.input = v_driveA
        ∧ output_filepath line.input = some line.output
        ∧ line.mkdirDir = line.output.dropLast
        ∧ line.codec = "h264_nvenc"
        ∧ line.crf = 24 :=
  ⟨(C8_one_line_per_job [v_driveA] (by decide)).1,
   (C8_one_line_per_job [v_driveA] (by decide)).2 0 (by decide)⟩

/-- C9: every write target of a generated line, i.e. the mkdir directory
and the ffmpeg output, lies strictly under the output drive, lies under
no input drive, and differs from the input file, so original files are
never written. -/
theorem C9_writes_confined (d : String) (rest : PathParts) (line : ShellLine)
    (hd : d ∈ DRIVES) (hrest : rest ≠ [])
    (hline : genLine (MOUNT_POINT ++ d :: rest) = some line) :
    (∃ t, t ≠ [] ∧ line.output = OUTPUT_DRIVE ++ t)
    ∧ (∃ t, t ≠ [] ∧ line.mkdirDir = OUTPUT_DRIVE ++ t)
    ∧ (∀ d2 ∈ DRIVES, ∀ t, line.output ≠ MOUNT_POINT ++ d2 :: t)
    ∧ (∀ d2 ∈ DRIVES, ∀ t, line.mkdirDir ≠ MOUNT_POINT ++ d2 :: t)
    ∧ line.output ≠ line.input ∧ line.mkdirDir ≠ line.input := by
  have hdm : d ≠ "maternal" := by
    intro hcontra
    subst hcontra
    exact absurd hd (by decide)
  have hgl : genLine (MOUNT_POINT ++ d :: rest) = some
      { mkdirDir := (OUTPUT_DRIVE ++ d :: rest).dropLast,
        input := MOUNT_POINT ++ d :: rest,
        output := OUTPUT_DRIVE ++ d :: rest,
        codec := "h264_nvenc", crf := 24 } := by
    unfold genLine output_filepath
    rw [relative_to_append]
    rfl
  rw [hgl] at hline
  have hlv := Option.some.inj hline
  subst hlv
  have hdrop : (OUTPUT_DRIVE ++ d :: rest).dropLast =
      OUTPUT_DRIVE ++ d :: rest.dropLast := by
    rw [List.dropLast_append_cons, List.dropLast_cons_of_ne_nil hrest]
  have hout : (OUTPUT_DRIVE ++ d :: rest : PathParts) =
      MOUNT_POINT ++ "maternal" :: d :: rest := by
    simp [OUTPUT_DRIVE]
  have hmk : ((OUTPUT_DRIVE ++ d :: rest).dropLast : PathParts) =
      MOUNT_POINT ++ "maternal" :: d :: rest.dropLast := by
    rw [hdrop]
    simp [OUTPUT_DRIVE]
  refine ⟨⟨d :: rest, by simp, rfl⟩,
          ⟨d :: rest.dropLast, by simp, hdrop⟩, ?_, ?_, ?_, ?_⟩
  · intro d2 hd2 t heq
    rw [hout] at heq
    have := List.append_cancel_left heq
    have hd2m : d2 = "maternal" := ((List.cons.injEq _ _ _ _).mp this).1.symm
    subst hd2m
    exact absurd hd2 (by decide)
  · intro d2 hd2 t heq
    rw [hmk] at heq
    have := List.append_cancel_left heq
    have hd2m : d2 = "maternal" := ((List.cons.injEq _ _ _ _).mp this).1.symm
    subst hd2m
    exact absurd hd2 (by decide)
  · intro heq
    rw [hout] at heq
    have := List.append_cancel_left heq
    have hlen := congrArg List.length this
    simp at hlen
  · intro heq
    rw [hmk] at heq
    have := List.append_cancel_left heq
    exact hdm ((List.cons.injEq _ _ _ _).mp this).1.symm

/-- C9 witness: the generated line for a concrete input writes only
under the output drive and not to its input. -/
theorem C9_witness :
    (∃ t, t ≠ [] ∧ lineA.output = OUTPUT_DRIVE ++ t)
    ∧ lineA.output ≠ lineA.input :=
  ⟨(C9_writes_confined "11D9-5C57" ["x", "clip.mp4"] lineA (by decide) (by decide) rfl).1,
   (C9_writes_confined "11D9-5C57" ["x", "clip.mp4"] lineA (by decide) (by decide)
     rfl).2.2.2.2.1⟩

/-- C10: composing the planner mapping with the verifier reconstruction
gives back the original input path: relativizing the planned output to
the output drive and rejoining it to the mount point yields exactly the
input, so every verification compares a transcoded file with its own
source. -/
theorem C10_roundtrip (v : PathParts)
    (hv : v.take MOUNT_POINT.length = MOUNT_POINT) :
    ∃ out, output_filepath v = some out ∧ original_video out = some v := by
  refine ⟨OUTPUT_DRIVE ++ v.drop MOUNT_POINT.length, ?_, ?_⟩
  · unfold output_filepath
    rw [relative_to_of_take_eq v MOUNT_POINT hv]
    rfl
  · unfold original_video
    rw [relative_to_append]
    simp only [Option.map_some']
    rw [← eq_append_of_take_eq v MOUNT_POINT hv]

/-- C10 witness: the round trip on a concrete input. -/
theorem C10_witness :
    ∃ out, output_filepath v_driveA = some out ∧ original_video out = some v_driveA :=
  C10_roundtrip v_driveA (by decide)
